import Mathlib

/-!
Verification of the trnslt App Store localization tool (src/main.py) against
its natural-language specification.

The Python program is shallowly embedded: pure string helpers become Lean
functions over `String` (Python `len` counts code points, as does Lean
`String.length`; Python slices and `find`/`rfind` are modelled with explicit
`Int` index arithmetic including the negative-index slice convention);
the network-bound reconciliation engine of the `__main__` block becomes
pure decision functions parameterised by oracles for the remote responses
(translation results, create outcomes, fetched localization lists), so that
the control flow of the engine — which branch runs, which request body is
built — is captured exactly while the network itself stays abstract.
-/

namespace Trnslt

/-! ## Python string primitives -/

/-- Python whitespace predicate for `str.strip` (ASCII range). -/
def pyIsSpace (c : Char) : Bool :=
  c = ' ' || c = '\t' || c = '\n' || c = '\r' || c = '\x0b' || c = '\x0c'

/-- Python `str.strip()`: drop leading and trailing whitespace. -/
def pyStrip (s : String) : String :=
  String.mk (((s.toList.dropWhile pyIsSpace).reverse.dropWhile pyIsSpace).reverse)

/-- Python `s.split(sep)` for a single-character separator, over the
character list: `"".split(c)` gives one empty item, and consecutive
separators produce empty items. -/
def pySplitChar (sep : Char) : List Char → List (List Char)
  | [] => [[]]
  | c :: rest =>
    let r := pySplitChar sep rest
    if c = sep then [] :: r
    else (c :: r.headD []) :: r.tail

/-- Whether `sub` occurs as a contiguous substring: Python `sub in s`,
over character lists (for a non-empty `sub`). -/
def containsSubList (sub : List Char) : List Char → Bool
  | [] => sub.isEmpty
  | c :: rest => sub.isPrefixOf (c :: rest) || containsSubList sub rest

/-- The characters before the first occurrence of `sub`: Python
`s.split(sub, 1)[0]` when `sub` occurs in `s`. -/
def leftOfSubList (sub : List Char) : List Char → List Char
  | [] => []
  | c :: rest => if sub.isPrefixOf (c :: rest) then [] else c :: leftOfSubList sub rest

/-- Python slice `s[:e]` with the negative-index convention:
a negative `e` counts from the end, clamped at 0. -/
def pySliceTo (s : String) (e : Int) : String :=
  let n : Int := s.length
  let eNorm : Int := if e < 0 then max (n + e) 0 else min e n
  String.mk (s.toList.take eNorm.toNat)

/-- Python `s.find(c)`: index of the first occurrence of character `c`,
`-1` when absent. -/
def pyFindChar (s : String) (c : Char) : Int :=
  match s.toList.findIdx? (fun x => x = c) with
  | some i => (i : Int)
  | none => -1

/-- Index of the last occurrence of `c` among positions `< e` of `l`
(the foldl keeps the final, i.e. highest, matching index). -/
def rfindList (l : List Char) (c : Char) (e : Nat) : Option Nat :=
  ((List.range e).filter (fun i => l.get? i = some c)).foldl (fun _ i => some i) none

/-- Python `s.rfind(c, 0, stop)`: highest index of `c` in `s[0:stop]`,
`-1` when absent; `stop` is normalized by the slice convention. -/
def pyRfindChar (s : String) (c : Char) (stop : Int) : Int :=
  let n : Int := s.length
  let eNorm : Int := if stop < 0 then max (n + stop) 0 else min stop n
  match rfindList s.toList c eNorm.toNat with
  | some i => (i : Int)
  | none => -1

/-! ## Text truncator (src/main.py lines 44-59 and 372-390) -/

/-- `AppStoreConnect.truncate_app_info_text` (src/main.py lines 44-59).
Mirrors the Python body: no-op for empty text or text within the limit;
a text containing " - " keeps the left part (plus " -" when it fits in
`max_length - 3`, else hard-cut to `max_length`); otherwise, when a space
occurs before position `max_length - 3` and the last such space has a
positive index, cut there and append "..."; in every remaining case cut to
`max_length - 3` and append "...". Index arithmetic is over `Int`, matching
Python. -/
def truncate_app_info_text (text : String) (max_length : Nat := 30) : String :=
  if text = "" ∨ text.length ≤ max_length then text
  else if containsSubList (" - ").toList text.toList then
    let parts0 := String.mk (leftOfSubList (" - ").toList text.toList)
    if (parts0.length : Int) ≤ (max_length : Int) - 3 then parts0 ++ " -"
    else pySliceTo parts0 (max_length : Int)
  else if text.toList.contains ' ' ∧ pyFindChar text ' ' < (max_length : Int) - 3 then
    let last_space := pyRfindChar text ' ' ((max_length : Int) - 3)
    if 0 < last_space then pySliceTo text last_space ++ "..."
    else pySliceTo text ((max_length : Int) - 3) ++ "..."
  else pySliceTo text ((max_length : Int) - 3) ++ "..."

/-- Loop body of `truncate_keywords` (src/main.py lines 381-388): greedily
accumulate stripped items while the running total (item lengths plus 2 per
separator after the first item) stays within `max_length`; stop at the first
item that would exceed it. -/
def truncate_keywords_go (max_length : Nat) :
    List String → List String → Nat → List String
  | [], acc, _ => acc
  | keyword :: rest, acc, current_length =>
    let new_length := current_length + keyword.length + (if acc.isEmpty then 0 else 2)
    if new_length ≤ max_length then
      truncate_keywords_go max_length rest (acc ++ [keyword]) new_length
    else acc

/-- Python `sep.join(items)`. -/
def pyJoin (sep : String) : List String → String
  | [] => ""
  | [x] => x
  | x :: rest => x ++ sep ++ pyJoin sep rest

/-- `truncate_keywords` (src/main.py lines 372-390): split on commas, strip
each item, greedily keep whole items within the budget, rejoin with ", ". -/
def truncate_keywords (keywords : String) (max_length : Nat := 100) : String :=
  if keywords = "" then ""
  else
    pyJoin ", "
      (truncate_keywords_go max_length
        ((pySplitChar ',' keywords.toList).map (fun cs => pyStrip (String.mk cs))) [] 0)

/-! ## Startup credential check (src/main.py lines 10 and 492-496) -/

/-- The module-level statement at src/main.py line 10:
`os.environ["OPENAI_API_KEY"] = ""` — executed at import, before anything
else, it unconditionally overwrites the variable in the process
environment. -/
def moduleEnvAssign (env : String → Option String) : String → Option String :=
  fun k => if k = "OPENAI_API_KEY" then some "" else env k

/-- Python truthiness of `not os.getenv("OPENAI_API_KEY")` (line 494):
true when the variable is absent or holds the empty string. -/
def openaiKeyFalsy (env : String → Option String) : Bool :=
  match env "OPENAI_API_KEY" with
  | none => true
  | some v => v = ""

/-- Whether the `__main__` startup check (lines 492-496) calls
`sys.exit(1)`, as a function of the process environment the interpreter was
started with: line 10 runs first, then the check reads the result. -/
def startup_exits_one (env : String → Option String) : Bool :=
  openaiKeyFalsy (moduleEnvAssign env)

/-! ## Locale resolver (src/main.py lines 392-435, 570-609) -/

/-- The `locale_mapping` table of `get_language_from_locale`
(src/main.py lines 394-427). -/
def locale_mapping : List (String × String) :=
  [("en", "English"), ("fr", "French"), ("es", "Spanish"), ("de", "German"),
   ("it", "Italian"), ("ja", "Japanese"), ("ko", "Korean"), ("pt", "Portuguese"),
   ("ru", "Russian"), ("zh", "Chinese"), ("nl", "Dutch"), ("sv", "Swedish"),
   ("da", "Danish"), ("fi", "Finnish"), ("no", "Norwegian"), ("pl", "Polish"),
   ("tr", "Turkish"), ("ar", "Arabic"), ("he", "Hebrew"), ("th", "Thai"),
   ("cs", "Czech"), ("hu", "Hungarian"), ("ro", "Romanian"), ("uk", "Ukrainian"),
   ("vi", "Vietnamese"), ("id", "Indonesian"), ("ms", "Malay"), ("sk", "Slovak"),
   ("el", "Greek"), ("hr", "Croatian"), ("ca", "Catalan"), ("hi", "Hindi")]

/-- `get_language_from_locale` (src/main.py lines 392-435): strip a region
suffix, look up the base code, default to "English". -/
def get_language_from_locale (locale : String) : String :=
  let base_locale := if locale.toList.contains '-' then
                       String.mk ((pySplitChar '-' locale.toList).headD [])
                     else locale
  (locale_mapping.lookup base_locale).getD "English"

/-- The `target_languages` catalog defined in `__main__`
(src/main.py lines 570-609), in source order. -/
def target_languages : List (String × String) :=
  [("it", "Italian"), ("fi", "Finnish"), ("ja", "Japanese"), ("ko", "Korean"),
   ("ro", "Romanian"), ("ru", "Russian"), ("sv", "Swedish"), ("sk", "Slovak"),
   ("ms", "Malay"), ("no", "Norwegian"), ("pl", "Polish"), ("ar-SA", "Arabic"),
   ("ca", "Catalan"), ("zh-Hans", "Chinese (Simplified)"),
   ("zh-Hant", "Chinese (Traditional)"), ("hr", "Croatian"), ("cs", "Czech"),
   ("da", "Danish"), ("nl-NL", "Dutch"), ("en-AU", "English (Australia)"),
   ("en-CA", "English (Canada)"), ("en-GB", "English (U.K.)"),
   ("fr-FR", "French"), ("fr-CA", "French (Canada)"), ("de-DE", "German"),
   ("el", "Greek"), ("he", "Hebrew"), ("hi", "Hindi"), ("hu", "Hungarian"),
   ("id", "Indonesian"), ("pt-BR", "Portuguese (Brazil)"),
   ("pt-PT", "Portuguese (Portugal)"), ("es-MX", "Spanish (Mexico)"),
   ("es-ES", "Spanish (Spain)"), ("th", "Thai"), ("tr", "Turkish"),
   ("uk", "Ukrainian"), ("vi", "Vietnamese")]

/-! ## Translation gateway (src/main.py lines 437-490) -/

/-- `translate_content` (src/main.py lines 437-490). The OpenAI
chat-completion call is abstracted as `provider model systemMessage text`,
returning either the raw completion text or an error (any exception inside
the `try` block — API failure, bad response shape — is a `.error`). The
surrounding logic (empty-input short-circuit, source/target language
resolution, system-message construction, strip, keyword truncation, and the
catch-all that returns the original text) is translated directly. -/
def translate_content (text : String) (target_language : String)
    (is_keywords : Bool) (model : String) (source_locale : Option String)
    (provider : String → String → String → Except String String) : String :=
  if text = "" then ""
  else
    let locale := match source_locale with
                  | some s => if s = "" then "en-US" else s
                  | none => "en-US"
    let source_language := get_language_from_locale locale
    let target_language_name :=
      if target_language.toList.contains '-' ∨ (target_languages.lookup target_language).isSome then
        (target_languages.lookup target_language).getD (get_language_from_locale target_language)
      else target_language
    let system_message :=
      "You are a professional translator specializing in app store descriptions and keywords. " ++
      "Translate the following text from " ++ source_language ++ " to " ++ target_language_name ++ ". " ++
      "Maintain the marketing style and ensure the translation is natural and appealing to " ++
      target_language_name ++ "-speaking users. " ++
      (if is_keywords then
        "Provide keywords as a comma-separated list. " ++
        "Focus on commonly searched terms in the target language. " ++
        "Keep keywords concise and relevant to the app."
      else "")
    match provider model system_message text with
    | Except.ok raw =>
      let translated_text := pyStrip raw
      if is_keywords then truncate_keywords translated_text 100 else translated_text
    | Except.error _ => text

/-! ## Store write bodies (src/main.py lines 122-231, 790-807) -/

/-- Attribute dictionary built by `update_app_store_version_localization`
(src/main.py lines 130-149): each field is added only when the argument is
not `None`, in source order. -/
def update_app_store_version_localization_attributes
    (description keywords promotional_text marketing_url support_url whats_new :
      Option String) : List (String × String) :=
  (match description with | some v => [("description", v)] | none => []) ++
  (match keywords with | some v => [("keywords", v)] | none => []) ++
  (match promotional_text with | some v => [("promotionalText", v)] | none => []) ++
  (match marketing_url with | some v => [("marketingUrl", v)] | none => []) ++
  (match support_url with | some v => [("supportUrl", v)] | none => []) ++
  (match whats_new with | some v => [("whatsNew", v)] | none => [])

/-- Attribute dictionary built by `create_app_store_version_localization`
(src/main.py lines 159-187): locale and description always, optional
fields only when not `None`. -/
def create_app_store_version_localization_attributes (locale description : String)
    (keywords promotional_text marketing_url support_url whats_new : Option String) :
    List (String × String) :=
  [("locale", locale), ("description", description)] ++
  (match keywords with | some v => [("keywords", v)] | none => []) ++
  (match promotional_text with | some v => [("promotionalText", v)] | none => []) ++
  (match marketing_url with | some v => [("marketingUrl", v)] | none => []) ++
  (match support_url with | some v => [("supportUrl", v)] | none => []) ++
  (match whats_new with | some v => [("whatsNew", v)] | none => [])

/-- Attribute dictionary built by `update_app_info_localization`
(src/main.py lines 191-217): a non-`None` name or subtitle is first passed
through `truncate_app_info_text` (default limit 30); both keys are always
present, a `None` argument becoming the empty string. -/
def update_app_info_localization_attributes (name subtitle : Option String) :
    List (String × String) :=
  let nameT := name.map (fun n => truncate_app_info_text n 30)
  let subtitleT := subtitle.map (fun s => truncate_app_info_text s 30)
  [("name", nameT.getD ""), ("subtitle", subtitleT.getD "")]

/-- Attribute dictionary of the `create_data` literal built inline in the
`__main__` app-info create path (src/main.py lines 790-807): the translated
name and subtitle are inserted as-is, with no truncation step. -/
def main_create_app_info_attributes (locale translated_name translated_subtitle : String) :
    List (String × String) :=
  [("locale", locale), ("name", translated_name), ("subtitle", translated_subtitle)]

/-! ## Reconciliation engine: version-content track (src/main.py lines 712-947) -/

/-- An app-store-version localization record as read from the store:
`id` plus the attributes the engine consumes (each defaulting to "" when
the JSON key is missing, matching `attributes.get(key, "")`). -/
structure VersionLoc where
  id : String
  locale : String
  description : String
  keywords : String
  marketingUrl : String
  supportUrl : String
deriving DecidableEq

/-- The `existing_locales` dictionary built at src/main.py lines 713-718:
keyed by locale, a later record with the same locale overwriting an
earlier one (Python dict assignment in a loop). -/
def existing_locale_id (locs : List VersionLoc) (locale : String) : Option String :=
  locs.foldl (fun acc l => if l.locale = locale then some l.id else acc) none

/-- The `next(...)` search at src/main.py lines 862-866 (and 627-631):
first record with the given locale. -/
def find_existing_loc (locs : List VersionLoc) (locale : String) : Option VersionLoc :=
  locs.find? (fun l => l.locale = locale)

/-- Outcome of one locale's version-content track decision. -/
inductive VersionAction where
  | skip
  | update (locId : String) (attrs : List (String × String))
  | create (attrs : List (String × String))
deriving DecidableEq

/-- The version-content track of the per-locale loop (src/main.py lines
861-918, decision and request-body construction only; the 409 recovery of
the create branch is modelled separately). `translated_description_oracle`
and `translated_keywords_oracle` stand for the results of the
`translate_content` calls, which run only on the branches that invoke them.
An existing locale (checked against the `existing_locales` dictionary) is
updated, reusing its description/keywords verbatim when they are non-blank
and falling back to its URLs when the source URLs are empty (Python
truthiness); an absent locale is created from freshly translated content. -/
def version_track_step (translate_app_store : Bool)
    (translated_description_oracle translated_keywords_oracle : String)
    (keyword_limit : Nat)
    (source_marketing_url source_support_url : String)
    (existing : List VersionLoc) (locale : String) : VersionAction :=
  match existing_locale_id existing locale, translate_app_store with
  | some loc_id, true =>
    match find_existing_loc existing locale with
    | some existing_loc =>
      let translated_description :=
        if pyStrip existing_loc.description = "" then translated_description_oracle
        else existing_loc.description
      let translated_keywords :=
        if pyStrip existing_loc.keywords = "" then
          truncate_keywords translated_keywords_oracle keyword_limit
        else existing_loc.keywords
      VersionAction.update loc_id
        (update_app_store_version_localization_attributes
          (some translated_description) (some translated_keywords) none
          (some (if source_marketing_url = "" then existing_loc.marketingUrl
                 else source_marketing_url))
          (some (if source_support_url = "" then existing_loc.supportUrl
                 else source_support_url))
          none)
    | none => VersionAction.skip
  | none, true =>
    VersionAction.create
      (create_app_store_version_localization_attributes locale
        translated_description_oracle
        (some (truncate_keywords translated_keywords_oracle keyword_limit)) none
        (some source_marketing_url) (some source_support_url) none)
  | _, false => VersionAction.skip

/-- Result of the POST issued by the version-content create branch. -/
inductive CreateResult where
  | ok
  | httpError (status : Nat)
  | exn
deriving DecidableEq

/-- How the version-content create branch for one locale ends. -/
inductive VersionCreateOutcome where
  | created
  | conflictUpdated (locId : String) (attrs : List (String × String))
  | conflictUnresolved
  | httpFailureLogged (status : Nat)
  | errorContinue
deriving DecidableEq

/-- The create branch of the version-content track with its conflict
recovery (src/main.py lines 910-947): on a 409 the engine re-fetches the
localization list (`refetch`) and updates the first record matching the
locale with the translated content and the source URLs; a 409 with no match
falls through silently; a non-409 HTTP error is logged and the locale
abandoned; any other exception is logged and the loop continues. -/
def version_create_with_recovery (createRes : CreateResult)
    (refetch : List VersionLoc)
    (locale translated_description translated_keywords : String)
    (source_marketing_url source_support_url : String) : VersionCreateOutcome :=
  match createRes with
  | CreateResult.ok => VersionCreateOutcome.created
  | CreateResult.httpError status =>
    if status = 409 then
      match find_existing_loc refetch locale with
      | some loc =>
        VersionCreateOutcome.conflictUpdated loc.id
          (update_app_store_version_localization_attributes
            (some translated_description) (some translated_keywords) none
            (some source_marketing_url) (some source_support_url) none)
      | none => VersionCreateOutcome.conflictUnresolved
    else VersionCreateOutcome.httpFailureLogged status
  | CreateResult.exn => VersionCreateOutcome.errorContinue

/-! ## Reconciliation engine: app-info track (src/main.py lines 724-859) -/

/-- An app-info localization record as read from the store. -/
structure AppInfoLoc where
  id : String
  locale : String
deriving DecidableEq

/-- The per-locale scan of src/main.py lines 746-770: walk
`app_info_ids_to_check` in order (primary first, then the other app-info
resources); a scan request that raises is logged and skipped
(`Except.error`); the first app-info whose localization list contains the
target locale wins, yielding (app-info id, localization id). -/
def app_info_find_existing
    (scans : List (String × Except Unit (List AppInfoLoc))) (locale : String) :
    Option (String × String) :=
  match scans with
  | [] => none
  | (_, Except.error _) :: rest => app_info_find_existing rest locale
  | (check_app_info_id, Except.ok locs) :: rest =>
    match locs.find? (fun l => l.locale = locale) with
    | some loc => some (check_app_info_id, loc.id)
    | none => app_info_find_existing rest locale

/-- Outcome of one locale's app-info track decision. -/
inductive AppInfoAction where
  | update (locId : String) (attrs : List (String × String))
  | create (appInfoId : String) (attrs : List (String × String))
deriving DecidableEq

/-- The app-info track decision (src/main.py lines 772-813): if the scan
found an existing localization, update it (through
`update_app_info_localization`, which truncates); otherwise create against
the primary app-info resource with the inline `create_data` body, which
does not truncate. -/
def app_info_track_decision (primary_app_info_id : String)
    (scans : List (String × Except Unit (List AppInfoLoc)))
    (locale translated_name translated_subtitle : String) : AppInfoAction :=
  match app_info_find_existing scans locale with
  | some (_, existing_loc_id) =>
    AppInfoAction.update existing_loc_id
      (update_app_info_localization_attributes (some translated_name)
        (some translated_subtitle))
  | none =>
    AppInfoAction.create primary_app_info_id
      (main_create_app_info_attributes locale translated_name translated_subtitle)

/-- An operation attempted by the app-info 409 recovery. -/
inductive AppInfoOp where
  | tryCreate (appInfoId : String)
  | rescan (appInfoId : String)
  | update (locId : String)
deriving DecidableEq

/-- The alternate-create loop of the app-info 409 handler (src/main.py
lines 819-830): for each id in `app_info_ids_to_check` other than the
primary, retry the POST; stop after the first success; a failed retry is
logged and the loop moves on. No lifecycle-state filter is applied. -/
def alt_create_ops (primary : String) (ids : List String)
    (createOk : String → Bool) : List AppInfoOp :=
  match ids with
  | [] => []
  | id :: rest =>
    if id = primary then alt_create_ops primary rest createOk
    else if createOk id then [AppInfoOp.tryCreate id]
    else AppInfoOp.tryCreate id :: alt_create_ops primary rest createOk

/-- The final-attempt loop of the app-info 409 handler (src/main.py lines
831-849): re-scan every id in `app_info_ids_to_check`; each localization
matching the locale is updated (the inner `break` only ends the inner
loop, so later app-infos are still scanned); a scan or update that raises
ends the whole final attempt (the enclosing `try`). -/
def final_attempt_ops (ids : List String)
    (scan : String → Except Unit (List AppInfoLoc))
    (updateOk : String → Bool) (locale : String) : List AppInfoOp :=
  match ids with
  | [] => []
  | id :: rest =>
    match scan id with
    | Except.error _ => [AppInfoOp.rescan id]
    | Except.ok locs =>
      match locs.find? (fun l => l.locale = locale) with
      | some loc =>
        if updateOk loc.id then
          AppInfoOp.rescan id :: AppInfoOp.update loc.id ::
            final_attempt_ops rest scan updateOk locale
        else [AppInfoOp.rescan id, AppInfoOp.update loc.id]
      | none => AppInfoOp.rescan id :: final_attempt_ops rest scan updateOk locale

/-- The whole 409 recovery of the app-info create path (src/main.py lines
814-849): the alternate-create loop followed — unconditionally, even after
a successful alternate create — by the final-attempt re-scan. The handler
swallows every failure, so control always falls through to the next
locale. -/
def app_info_conflict_recovery_ops (primary : String) (ids : List String)
    (createOk : String → Bool) (scan : String → Except Unit (List AppInfoLoc))
    (updateOk : String → Bool) (locale : String) : List AppInfoOp :=
  alt_create_ops primary ids createOk ++ final_attempt_ops ids scan updateOk locale

/-- The behaviour claimed for the recovery: every retried create targets an
app-info resource whose lifecycle state (in `appInfoStates`) is
"PREPARE_FOR_SUBMISSION". -/
def retries_only_editable (appInfoStates : List (String × String))
    (ops : List AppInfoOp) : Bool :=
  ops.all fun op =>
    match op with
    | AppInfoOp.tryCreate id => appInfoStates.lookup id = some "PREPARE_FOR_SUBMISSION"
    | _ => true

/-! ## Interrupt handling in the locale loop (src/main.py lines 720-962) -/

/-- Where, if anywhere, a KeyboardInterrupt fires during one iteration of
the locale loop: inside the guarded `try` body (lines 723-948, covered by
the `except KeyboardInterrupt` at 949-951), or during the trailing
`time.sleep(2)` at line 962, which sits outside the `try`. -/
inductive LocaleInterrupt where
  | none
  | duringBody
  | duringSleep
deriving DecidableEq

/-- How the run over the locale catalog ends, with the number of locales
whose processing completed. `exitZero` is the `sys.exit(0)` of the
KeyboardInterrupt handler; `uncaughtInterrupt` is a KeyboardInterrupt that
escapes the loop entirely, terminating the interpreter with a nonzero
status. -/
inductive RunOutcome where
  | completed (processed : Nat)
  | exitZero (processed : Nat)
  | uncaughtInterrupt (processed : Nat)
deriving DecidableEq

/-- The locale loop of src/main.py lines 720-962, abstracted to its
interrupt behaviour: each iteration runs the guarded body and then the
unguarded sleep. -/
def locale_loop : List LocaleInterrupt → Nat → RunOutcome
  | [], n => RunOutcome.completed n
  | LocaleInterrupt.none :: rest, n => locale_loop rest (n + 1)
  | LocaleInterrupt.duringBody :: _, n => RunOutcome.exitZero n
  | LocaleInterrupt.duringSleep :: _, n => RunOutcome.uncaughtInterrupt (n + 1)

/-! ## Helper lemmas -/

lemma pyJoin_length_append (l : List String) (x : String) :
    (pyJoin ", " (l ++ [x])).length =
      if l = [] then x.length else (pyJoin ", " l).length + 2 + x.length := by
  induction l with
  | nil => simp [pyJoin]
  | cons y rest ih =>
    cases rest with
    | nil =>
      have h1 : pyJoin ", " ([y] ++ [x]) = y ++ ", " ++ x := rfl
      have h2 : pyJoin ", " [y] = y := rfl
      have hsep : (", ").length = 2 := rfl
      rw [if_neg (by simp), h1, h2, String.length_append, String.length_append, hsep]
    | cons z rest2 =>
      rw [if_neg (by simp)] at ih ⊢
      have h1 : pyJoin ", " ((y :: z :: rest2) ++ [x]) =
          y ++ ", " ++ pyJoin ", " ((z :: rest2) ++ [x]) := rfl
      have h2 : pyJoin ", " (y :: z :: rest2) = y ++ ", " ++ pyJoin ", " (z :: rest2) := rfl
      have hsep : (", ").length = 2 := rfl
      rw [h1, h2, String.length_append, String.length_append, String.length_append,
        String.length_append, ih, hsep]
      omega

lemma truncate_keywords_go_take (m : Nat) (l : List String) :
    ∀ (acc : List String) (cur : Nat),
      ∃ k, truncate_keywords_go m l acc cur = acc ++ l.take k := by
  induction l with
  | nil => intro acc cur; exact ⟨0, by simp [truncate_keywords_go]⟩
  | cons kw rest ih =>
    intro acc cur
    simp only [truncate_keywords_go]
    generalize (if acc.isEmpty = true then 0 else 2) = ov
    split
    · obtain ⟨k, hk⟩ := ih (acc ++ [kw]) (cur + kw.length + ov)
      refine ⟨k + 1, ?_⟩
      rw [hk, List.take_succ_cons, List.append_assoc, List.singleton_append]
    · exact ⟨0, by simp⟩

lemma truncate_keywords_go_length (m : Nat) (l : List String) :
    ∀ (acc : List String) (cur : Nat), cur = (pyJoin ", " acc).length → cur ≤ m →
      (pyJoin ", " (truncate_keywords_go m l acc cur)).length ≤ m := by
  induction l with
  | nil =>
    intro acc cur hcur hle
    simp only [truncate_keywords_go]
    omega
  | cons kw rest ih =>
    intro acc cur hcur hle
    simp only [truncate_keywords_go]
    by_cases hacc : acc.isEmpty
    · rw [if_pos hacc]
      have hacc2 : acc = [] := by
        cases acc with
        | nil => rfl
        | cons a t => simp [List.isEmpty] at hacc
      subst hacc2
      have h0 : cur = 0 := hcur
      subst h0
      split
      · next h =>
        apply ih
        · show 0 + kw.length + 0 = kw.length
          omega
        · exact h
      · next h => exact Nat.zero_le m
    · rw [if_neg hacc]
      have hacc2 : acc ≠ [] := by
        cases acc with
        | nil => simp [List.isEmpty] at hacc
        | cons a t => simp
      split
      · next h =>
        apply ih
        · rw [pyJoin_length_append, if_neg hacc2, ← hcur]
          omega
        · exact h
      · next h =>
        omega

lemma pySliceTo_length_le (s : String) (e : Int) (he : 0 ≤ e) :
    (pySliceTo s e).length ≤ e.toNat := by
  simp only [pySliceTo]
  rw [if_neg (by omega)]
  have h1 : (String.mk (s.toList.take (min e (s.length : Int)).toNat)).length =
      (s.toList.take (min e (s.length : Int)).toNat).length := rfl
  rw [h1, List.length_take]
  have h2 : (min e (s.length : Int)).toNat ≤ e.toNat :=
    Int.toNat_le_toNat (min_le_left _ _)
  omega

lemma foldl_some_mem (xs : List Nat) (a : Nat) :
    ∀ (init : Option Nat), xs.foldl (fun _ i => some i) init = some a →
      a ∈ xs ∨ init = some a := by
  induction xs with
  | nil => intro init h; exact Or.inr h
  | cons x rest ih =>
    intro init h
    rcases ih (some x) h with hmem | heq
    · exact Or.inl (List.mem_cons_of_mem _ hmem)
    · exact Or.inl (by simp at heq; simp [heq])

lemma rfindList_lt (l : List Char) (c : Char) (e : Nat) (i : Nat)
    (h : rfindList l c e = some i) : i < e := by
  unfold rfindList at h
  rcases foldl_some_mem _ _ _ h with hmem | hinit
  · exact List.mem_range.mp (List.mem_of_mem_filter hmem)
  · simp at hinit

lemma pyRfindChar_lt (s : String) (c : Char) (stop : Int) (hstop : 0 ≤ stop)
    (hpos : 0 < pyRfindChar s c stop) : pyRfindChar s c stop < stop := by
  simp only [pyRfindChar] at hpos ⊢
  rw [if_neg (by omega)] at hpos ⊢
  cases hfind : rfindList s.toList c (min stop (s.length : Int)).toNat with
  | none => simp only [hfind] at hpos; omega
  | some i =>
    simp only [hfind] at hpos ⊢
    have h1 : i < (min stop (s.length : Int)).toNat := rfindList_lt _ _ _ _ hfind
    have h2 : min stop (s.length : Int) ≤ stop := min_le_left _ _
    omega

/-! ## Claim C8 -/

/-- C8: `truncate_keywords` splits on commas, strips each item, and
greedily keeps whole items within the budget (2 extra units per separator
after the first item), stopping at the first overflowing item and joining
the survivors with ", ": it returns "" for every limit on empty input,
maps ("a, b, c", 100) to "a, b, c" and ("aaaaaaaaaa, bbbbbbbbbb", 12) to
"aaaaaaaaaa", always returns a join of a whole-item prefix of the stripped
item list (never a partial item), and its output length never exceeds the
limit. -/
theorem c8_truncate_keywords_correct :
    (∀ n, truncate_keywords "" n = "") ∧
    truncate_keywords "a, b, c" 100 = "a, b, c" ∧
    truncate_keywords "aaaaaaaaaa, bbbbbbbbbb" 12 = "aaaaaaaaaa" ∧
    (∀ text n, ∃ k,
      truncate_keywords text n =
        pyJoin ", " (((pySplitChar ',' (String.toList text)).map
          (fun cs => pyStrip (String.mk cs))).take k)) ∧
    (∀ text n, (truncate_keywords text n).length ≤ n) := by
  refine ⟨fun n => by simp [truncate_keywords], by decide, by decide, ?_, ?_⟩
  · intro text n
    by_cases h : text = ""
    · exact ⟨0, by simp [truncate_keywords, h, pyJoin]⟩
    · unfold truncate_keywords
      rw [if_neg h]
      obtain ⟨k, hk⟩ := truncate_keywords_go_take n
        ((pySplitChar ',' (String.toList text)).map (fun cs => pyStrip (String.mk cs))) [] 0
      exact ⟨k, by rw [hk]; simp⟩
  · intro text n
    by_cases h : text = ""
    · simp [truncate_keywords, h]
    · unfold truncate_keywords
      rw [if_neg h]
      exact truncate_keywords_go_length n _ [] 0 rfl (Nat.zero_le n)

/-! ## Claim C9 -/

/-- C9 counterexample: the claim asserts
`truncate_app_info_text("Save Smart - Budget App", 30)` yields
"Save Smart -", but that input is 23 characters, within the 30 limit, so
the no-op branch returns it unchanged. The claim also asserts that
whenever a space exists before position `max_length - 3` the text is cut
at the last such space with "..." appended, which for the third input
(space only at index 0) would give "..."; the code instead requires that
space to be at a positive index and hard-truncates. -/
theorem c9_claimed_examples_false :
    truncate_app_info_text "Save Smart - Budget App" 30 = "Save Smart - Budget App" ∧
    truncate_app_info_text "Save Smart - Budget App" 30 ≠ "Save Smart -" ∧
    truncate_app_info_text " aaaaaaaaaaaaaaaaaaaaaaaaaaaaaaaaaaaa" 30 ≠ "..." := by
  refine ⟨by decide, by decide, by decide⟩

/-- C9 amended: `truncate_app_info_text(text, max_length)` is the identity
for text within the limit; otherwise, if text contains " - " it splits once
on it and returns the left part plus " -" when that fits within
`max_length - 3`, else the left part hard-truncated to `max_length`;
otherwise, if a space exists before position `max_length - 3` and the last
such space is at a positive index, it truncates at that space and appends
"..."; otherwise it hard-truncates to `max_length - 3` and appends "..." —
deterministically and without side effects. Since
"Save Smart - Budget App" is only 23 characters it is returned unchanged
at limit 30; "Save Smart Budgeting - Budget App" (33 characters) yields
"Save Smart Budgeting -"; a 37-character spaceless word yields a
30-character string ending in "...". The output never exceeds the limit
when the limit is at least 3. -/
theorem c9_truncate_app_info_characterization :
    (∀ (text : String) (n : Nat), text.length ≤ n → truncate_app_info_text text n = text) ∧
    truncate_app_info_text "Save Smart Budgeting - Budget App" 30 = "Save Smart Budgeting -" ∧
    truncate_app_info_text "AAAAAAAAAAAAAAAAAAAAAAAAAAAAAAAA - B" 30 =
      "AAAAAAAAAAAAAAAAAAAAAAAAAAAAAA" ∧
    truncate_app_info_text "AAAA BBBB CCCC DDDD EEEE FFFF GGGG" 30 =
      "AAAA BBBB CCCC DDDD EEEE..." ∧
    truncate_app_info_text "SuperLongSingleWordNoSpaces1234567890" 30 =
      "SuperLongSingleWordNoSpaces..." ∧
    (truncate_app_info_text "SuperLongSingleWordNoSpaces1234567890" 30).length = 30 ∧
    truncate_app_info_text " aaaaaaaaaaaaaaaaaaaaaaaaaaaaaaaaaaaa" 30 =
      " aaaaaaaaaaaaaaaaaaaaaaaaaa..." ∧
    (∀ (text : String) (n : Nat), 3 ≤ n → (truncate_app_info_text text n).length ≤ n) := by
  refine ⟨?_, by decide, by decide, by decide, by decide, by decide, by decide, ?_⟩
  · intro text n h
    unfold truncate_app_info_text
    rw [if_pos (Or.inr h)]
  · intro text n h3
    simp only [truncate_app_info_text]
    split
    · next hc =>
      rcases hc with hc | hc
      · simp [hc]
      · exact hc
    · next hc =>
      split
      · split
        · next hfit =>
          rw [String.length_append]
          have h2 : (" -").length = 2 := rfl
          omega
        · next hfit =>
          have hle := pySliceTo_length_le
            (String.mk (leftOfSubList (" - ").toList (String.toList text))) (n : Int)
            (by omega)
          omega
      · split
        · next hsp =>
          split
          · next hpos =>
            have hlt : pyRfindChar text ' ' ((n : Int) - 3) < (n : Int) - 3 :=
              pyRfindChar_lt text ' ' ((n : Int) - 3) (by omega) hpos
            have hle := pySliceTo_length_le text (pyRfindChar text ' ' ((n : Int) - 3))
              (le_of_lt hpos)
            rw [String.length_append]
            have h2 : ("...").length = 3 := rfl
            omega
          · next hpos =>
            have hle := pySliceTo_length_le text ((n : Int) - 3) (by omega)
            rw [String.length_append]
            have h2 : ("...").length = 3 := rfl
            omega
        · next hsp =>
          have hle := pySliceTo_length_le text ((n : Int) - 3) (by omega)
          rw [String.length_append]
          have h2 : ("...").length = 3 := rfl
          omega

/-- C9 amended witness: the identity case and the length bound at concrete
inputs. -/
theorem c9_truncate_app_info_characterization_witness :
    truncate_app_info_text "Budget App" 30 = "Budget App" ∧
    (truncate_app_info_text "An app name that runs much too long for the store" 30).length ≤ 30 :=
  ⟨c9_truncate_app_info_characterization.1 "Budget App" 30 (by decide),
   c9_truncate_app_info_characterization.2.2.2.2.2.2.2
     "An app name that runs much too long for the store" 30 (by decide)⟩

/-! ## Claim C1 -/

/-- C1: the claim says startup exits with code 1 exactly when
OPENAI_API_KEY is absent from the process environment, proceeding when it
is present. In fact the module-level assignment at src/main.py line 10
overwrites the variable with the empty string before the check at lines
494-496 runs, so the check always sees a falsy value: the program exits
with code 1 for every starting environment, including one that carries a
real credential. -/
theorem c1_startup_always_exits_one :
    (∀ env : String → Option String, startup_exits_one env = true) ∧
    startup_exits_one
      (fun k => if k = "OPENAI_API_KEY" then some "sk-test-123" else none) = true := by
  constructor
  · intro env
    simp [startup_exits_one, openaiKeyFalsy, moduleEnvAssign]
  · rfl

/-! ## Claim C2 -/

/-- C2: the claim says every write of an app name or subtitle — updates
and creates alike — passes through `truncate_app_info_text`, so no write
carries more than 30 units. The update path does truncate, but the
`__main__` create path (src/main.py lines 789-817) builds its request body
inline without truncation: with no existing localization, a 40-character
translated name is sent verbatim, even though `truncate_app_info_text`
would have brought it within 30. -/
theorem c2_create_sends_untruncated_name :
    app_info_track_decision "APPINFO1" [("APPINFO1", Except.ok [])] "fr-FR"
        "AAAAAAAAAAAAAAAAAAAAAAAAAAAAAAAAAAAAAAAA" "Suivi budget" =
      AppInfoAction.create "APPINFO1"
        [("locale", "fr-FR"), ("name", "AAAAAAAAAAAAAAAAAAAAAAAAAAAAAAAAAAAAAAAA"),
         ("subtitle", "Suivi budget")] ∧
    ("AAAAAAAAAAAAAAAAAAAAAAAAAAAAAAAAAAAAAAAA" : String).length = 40 ∧
    (truncate_app_info_text "AAAAAAAAAAAAAAAAAAAAAAAAAAAAAAAAAAAAAAAA" 30).length ≤ 30 := by
  refine ⟨by decide, by decide, by decide⟩

/-! ## Claim C10 -/

/-- C10: in `update_app_info_localization` the PATCH attributes always
contain both the "name" and the "subtitle" key; a `None` argument becomes
the empty string rather than being omitted, so an update meant to change
only one of the two fields overwrites the other with "". -/
theorem c10_update_none_becomes_empty_string :
    ∀ (name subtitle : Option String),
      ((update_app_info_localization_attributes name subtitle).lookup "name").isSome = true ∧
      ((update_app_info_localization_attributes name subtitle).lookup "subtitle").isSome = true ∧
      (name = none →
        (update_app_info_localization_attributes name subtitle).lookup "name" = some "") ∧
      (subtitle = none →
        (update_app_info_localization_attributes name subtitle).lookup "subtitle" = some "") := by
  intro name subtitle
  refine ⟨?_, ?_, ?_, ?_⟩
  · simp [update_app_info_localization_attributes, List.lookup]
  · simp [update_app_info_localization_attributes, List.lookup]
  · intro h; subst h; simp [update_app_info_localization_attributes, List.lookup]
  · intro h; subst h; simp [update_app_info_localization_attributes, List.lookup]

/-- C10 witness: updating only the name leaves an explicit empty subtitle
in the body. -/
theorem c10_update_none_becomes_empty_string_witness :
    (update_app_info_localization_attributes (some "MoneyBox") none).lookup "subtitle" =
      some "" :=
  (c10_update_none_becomes_empty_string (some "MoneyBox") none).2.2.2 rfl

/-! ## Claim C6 -/

/-- C6: for every non-empty input, `translate_content` is total and on a
provider failure of any kind (the `except Exception` of src/main.py lines
488-490) returns the original, untranslated input text unchanged; the
failure is modelled as a provider oracle that returns an error for the one
call the function makes. -/
theorem c6_translate_failure_returns_input :
    ∀ (text target_language : String) (is_keywords : Bool) (model : String)
      (source_locale : Option String) (err : String),
      text ≠ "" →
      translate_content text target_language is_keywords model source_locale
        (fun _ _ _ => Except.error err) = text := by
  intro text target_language is_keywords model source_locale err h
  simp [translate_content, h]

/-- C6 witness: a concrete failing provider call falls back to the
input. -/
theorem c6_translate_failure_returns_input_witness :
    translate_content "Smart savings for everyone" "fr-FR" false "gpt-4" none
      (fun _ _ _ => Except.error "rate limit") = "Smart savings for everyone" :=
  c6_translate_failure_returns_input "Smart savings for everyone" "fr-FR" false "gpt-4"
    none "rate limit" (by decide)

/-! ## Claim C7 -/

/-- C7 counterexample: the claim says an interrupt at any point during a
locale's processing ends the run with exit status 0. An interrupt during
the inter-locale `time.sleep(2)` (src/main.py line 962) is raised outside
the `try` that holds the KeyboardInterrupt handler, so it escapes the loop
and the interpreter terminates with a nonzero status — not the claimed
`sys.exit(0)`. -/
theorem c7_sleep_interrupt_not_exit_zero :
    locale_loop [LocaleInterrupt.duringSleep, LocaleInterrupt.none] 0 =
      RunOutcome.uncaughtInterrupt 1 ∧
    locale_loop [LocaleInterrupt.duringSleep, LocaleInterrupt.none] 0 ≠
      RunOutcome.exitZero 1 ∧
    locale_loop [LocaleInterrupt.duringSleep, LocaleInterrupt.none] 0 ≠
      RunOutcome.exitZero 0 := by
  refine ⟨rfl, by decide, by decide⟩

lemma locale_loop_replicate_none (k : Nat) :
    ∀ (rest : List LocaleInterrupt) (n : Nat),
      locale_loop (List.replicate k LocaleInterrupt.none ++ rest) n =
        locale_loop rest (n + k) := by
  induction k with
  | zero => intro rest n; simp [List.replicate]
  | succ k ih =>
    intro rest n
    rw [List.replicate_succ, List.cons_append]
    show locale_loop (List.replicate k LocaleInterrupt.none ++ rest) (n + 1) = _
    rw [ih rest (n + 1)]
    congr 1
    omega

/-- C7 amended: an interrupt raised inside the guarded per-locale body
(the `try` of src/main.py lines 723-951) stops the run immediately — no
further locales are processed — with exit status 0; but an interrupt
during the inter-locale sleep, which lies outside that `try`, escapes and
terminates the run with a nonzero interpreter status instead. A run with
no interrupt completes all locales. -/
theorem c7_interrupt_behavior :
    (∀ (k : Nat) (post : List LocaleInterrupt),
      locale_loop (List.replicate k LocaleInterrupt.none ++
        LocaleInterrupt.duringBody :: post) 0 = RunOutcome.exitZero k) ∧
    (∀ (k : Nat) (post : List LocaleInterrupt),
      locale_loop (List.replicate k LocaleInterrupt.none ++
        LocaleInterrupt.duringSleep :: post) 0 = RunOutcome.uncaughtInterrupt (k + 1)) ∧
    (∀ k : Nat,
      locale_loop (List.replicate k LocaleInterrupt.none) 0 = RunOutcome.completed k) := by
  refine ⟨?_, ?_, ?_⟩
  · intro k post
    rw [locale_loop_replicate_none]
    show RunOutcome.exitZero (0 + k) = RunOutcome.exitZero k
    congr 1
    omega
  · intro k post
    rw [locale_loop_replicate_none]
    show RunOutcome.uncaughtInterrupt (0 + k + 1) = RunOutcome.uncaughtInterrupt (k + 1)
    congr 1
    omega
  · intro k
    have h := locale_loop_replicate_none k [] 0
    rw [List.append_nil] at h
    rw [h]
    show RunOutcome.completed (0 + k) = RunOutcome.completed k
    congr 1
    omega

/-! ## Claim C3 -/

lemma find_existing_loc_of_filter (locs : List VersionLoc) (locale : String)
    (r : VersionLoc) (h : locs.filter (fun l => l.locale = locale) = [r]) :
    find_existing_loc locs locale = some r := by
  induction locs with
  | nil => simp at h
  | cons x rest ih =>
    by_cases hx : x.locale = locale
    · rw [List.filter_cons_of_pos (by simp [hx])] at h
      have h2 := List.cons.injEq x (rest.filter (fun l => l.locale = locale)) r [] ▸ h
      rw [List.cons.injEq] at h
      unfold find_existing_loc
      rw [List.find?_cons_of_pos _ (by simp [hx]), h.1]
    · rw [List.filter_cons_of_neg (by simp [hx])] at h
      unfold find_existing_loc at ih ⊢
      rw [List.find?_cons_of_neg _ (by simp [hx])]
      exact ih h

lemma existing_locale_id_foldl_nil (locale : String) (locs : List VersionLoc) :
    ∀ acc : Option String,
      locs.filter (fun l => l.locale = locale) = [] →
      locs.foldl (fun acc l => if l.locale = locale then some l.id else acc) acc = acc := by
  induction locs with
  | nil => intro acc _; rfl
  | cons x rest ih =>
    intro acc h
    by_cases hx : x.locale = locale
    · rw [List.filter_cons_of_pos (by simp [hx])] at h
      simp at h
    · rw [List.filter_cons_of_neg (by simp [hx])] at h
      show rest.foldl _ (if x.locale = locale then some x.id else acc) = acc
      rw [if_neg hx]
      exact ih acc h

lemma existing_locale_id_of_filter (locs : List VersionLoc) (locale : String)
    (r : VersionLoc) (h : locs.filter (fun l => l.locale = locale) = [r]) :
    existing_locale_id locs locale = some r.id := by
  unfold existing_locale_id
  suffices hgen : ∀ acc : Option String,
      locs.foldl (fun acc l => if l.locale = locale then some l.id else acc) acc =
        some r.id from hgen none
  induction locs with
  | nil => simp at h
  | cons x rest ih =>
    intro acc
    by_cases hx : x.locale = locale
    · rw [List.filter_cons_of_pos (by simp [hx])] at h
      rw [List.cons.injEq] at h
      show rest.foldl _ (if x.locale = locale then some x.id else acc) = some r.id
      rw [if_pos hx, h.1]
      exact existing_locale_id_foldl_nil locale rest (some r.id) h.2
    · rw [List.filter_cons_of_neg (by simp [hx])] at h
      show rest.foldl _ (if x.locale = locale then some x.id else acc) = some r.id
      rw [if_neg hx]
      exact ih h acc

lemma app_info_find_existing_isSome
    (scans : List (String × Except Unit (List AppInfoLoc))) (locale : String)
    (hex : ∃ aid locs, (aid, Except.ok locs) ∈ scans ∧
      (locs.find? (fun l => l.locale = locale)).isSome) :
    (app_info_find_existing scans locale).isSome := by
  induction scans with
  | nil => obtain ⟨aid, locs, hmem, _⟩ := hex; simp at hmem
  | cons hd tl ih =>
    obtain ⟨aid, locs, hmem, hfind⟩ := hex
    obtain ⟨id0, res⟩ := hd
    cases res with
    | error e =>
      simp only [app_info_find_existing]
      apply ih
      rcases List.mem_cons.mp hmem with heq | hmem2
      · simp at heq
      · exact ⟨aid, locs, hmem2, hfind⟩
    | ok locs0 =>
      simp only [app_info_find_existing]
      cases hf : locs0.find? (fun l => l.locale = locale) with
      | some loc => simp
      | none =>
        apply ih
        rcases List.mem_cons.mp hmem with heq | hmem2
        · have hl : locs = locs0 := by
            rw [Prod.ext_iff] at heq
            have := heq.2
            injection this
          rw [hl, hf] at hfind
          simp at hfind
        · exact ⟨aid, locs, hmem2, hfind⟩

/-- C3: a target locale that already has a localization record is always
updated, never created. For the version-content track: when the
pre-fetched list holds exactly one record for the locale with non-blank
description and keywords (and its URLs agree with the non-empty source
URLs, as they do after a previous run from the same source), the step is
an update of that record whose body repeats the existing description,
keywords, and URLs verbatim — identical content, no re-translation and no
duplicate create. For the app-info track: whenever any scanned app-info
resource holds a localization for the locale, the decision is an update,
never a create. -/
theorem c3_existing_record_update_never_create :
    (∀ (translated_description_oracle translated_keywords_oracle : String)
       (keyword_limit : Nat) (source_marketing_url source_support_url : String)
       (existing : List VersionLoc) (locale : String) (r : VersionLoc),
      existing.filter (fun l => l.locale = locale) = [r] →
      pyStrip r.description ≠ "" →
      pyStrip r.keywords ≠ "" →
      (source_marketing_url ≠ "" → r.marketingUrl = source_marketing_url) →
      (source_support_url ≠ "" → r.supportUrl = source_support_url) →
      version_track_step true translated_description_oracle translated_keywords_oracle
          keyword_limit source_marketing_url source_support_url existing locale =
        VersionAction.update r.id
          [("description", r.description), ("keywords", r.keywords),
           ("marketingUrl", r.marketingUrl), ("supportUrl", r.supportUrl)]) ∧
    (∀ (primary : String) (scans : List (String × Except Unit (List AppInfoLoc)))
       (locale translated_name translated_subtitle : String),
      (∃ aid locs, (aid, Except.ok locs) ∈ scans ∧
        (locs.find? (fun l => l.locale = locale)).isSome) →
      ∃ loc_id,
        app_info_track_decision primary scans locale translated_name translated_subtitle =
          AppInfoAction.update loc_id
            (update_app_info_localization_attributes (some translated_name)
              (some translated_subtitle))) := by
  constructor
  · intro tdo tko klim sm ss existing locale r hfilter hdesc hkw hm hs
    simp only [version_track_step, existing_locale_id_of_filter existing locale r hfilter,
      find_existing_loc_of_filter existing locale r hfilter]
    rw [if_neg hdesc, if_neg hkw]
    simp only [update_app_store_version_localization_attributes]
    by_cases hsm : sm = ""
    · by_cases hss : ss = ""
      · simp [hsm, hss]
      · simp [hsm, if_neg hss, hs hss]
    · by_cases hss : ss = ""
      · simp [if_neg hsm, hm hsm, hss]
      · simp [if_neg hsm, hm hsm, if_neg hss, hs hss]
  · intro primary scans locale tn ts hex
    obtain ⟨⟨aid, lid⟩, hp⟩ :=
      Option.isSome_iff_exists.mp (app_info_find_existing_isSome scans locale hex)
    refine ⟨lid, ?_⟩
    unfold app_info_track_decision
    rw [hp]

/-- C3 witness: a populated store record is updated with its own content
verbatim, and a scanned app-info localization yields an update
decision. -/
theorem c3_existing_record_update_never_create_witness :
    version_track_step true "fresh description" "fresh, keywords" 100 "" ""
        [⟨"LOC1", "fr-FR", "Existing description", "existing,keywords",
          "https://m.example", "https://s.example"⟩] "fr-FR" =
      VersionAction.update "LOC1"
        [("description", "Existing description"), ("keywords", "existing,keywords"),
         ("marketingUrl", "https://m.example"), ("supportUrl", "https://s.example")] ∧
    (∃ loc_id,
      app_info_track_decision "AI1" [("AI1", Except.ok [⟨"L1", "fr-FR"⟩])] "fr-FR"
          "Nom" "Sous-titre" =
        AppInfoAction.update loc_id
          (update_app_info_localization_attributes (some "Nom") (some "Sous-titre"))) :=
  ⟨c3_existing_record_update_never_create.1 "fresh description" "fresh, keywords" 100 "" ""
      [⟨"LOC1", "fr-FR", "Existing description", "existing,keywords",
        "https://m.example", "https://s.example"⟩] "fr-FR"
      ⟨"LOC1", "fr-FR", "Existing description", "existing,keywords",
        "https://m.example", "https://s.example"⟩
      (by decide) (by decide) (by decide)
      (fun h => absurd rfl h) (fun h => absurd rfl h),
   c3_existing_record_update_never_create.2 "AI1" [("AI1", Except.ok [⟨"L1", "fr-FR"⟩])]
      "fr-FR" "Nom" "Sous-titre"
      ⟨"AI1", [⟨"L1", "fr-FR"⟩], by simp, by decide⟩⟩

/-! ## Claim C4 -/

/-- C4: when the version-content create returns a 409 conflict and the
re-fetched localization list now contains the target locale, the engine
updates that record with the translated description/keywords and the
source URLs — a success outcome for the locale, not a logged failure; a
non-conflict HTTP error is logged and the locale abandoned
(`httpFailureLogged`), and any other exception just moves the loop on
(`errorContinue`) — neither aborts the run. -/
theorem c4_version_conflict_recovery :
    ∀ (refetch : List VersionLoc) (locale d k m s : String) (r : VersionLoc)
      (status : Nat),
      (find_existing_loc refetch locale = some r →
        version_create_with_recovery (CreateResult.httpError 409) refetch locale d k m s =
          VersionCreateOutcome.conflictUpdated r.id
            [("description", d), ("keywords", k), ("marketingUrl", m),
             ("supportUrl", s)]) ∧
      (status ≠ 409 →
        version_create_with_recovery (CreateResult.httpError status) refetch locale d k m s =
          VersionCreateOutcome.httpFailureLogged status) ∧
      version_create_with_recovery CreateResult.exn refetch locale d k m s =
        VersionCreateOutcome.errorContinue := by
  intro refetch locale d k m s r status
  refine ⟨?_, ?_, rfl⟩
  · intro h
    simp [version_create_with_recovery, h, update_app_store_version_localization_attributes]
  · intro h
    simp [version_create_with_recovery, h]

/-- C4 witness: a concrete 409 with the locale present after the re-fetch
ends in the conflict-update success, and a concrete 500 is logged. -/
theorem c4_version_conflict_recovery_witness :
    version_create_with_recovery (CreateResult.httpError 409)
        [⟨"LOC9", "de-DE", "", "", "", ""⟩] "de-DE" "Beschreibung" "wort1,wort2"
        "https://m.example" "https://s.example" =
      VersionCreateOutcome.conflictUpdated "LOC9"
        [("description", "Beschreibung"), ("keywords", "wort1,wort2"),
         ("marketingUrl", "https://m.example"), ("supportUrl", "https://s.example")] ∧
    version_create_with_recovery (CreateResult.httpError 500) [] "de-DE"
        "Beschreibung" "wort1,wort2" "" "" =
      VersionCreateOutcome.httpFailureLogged 500 :=
  ⟨(c4_version_conflict_recovery [⟨"LOC9", "de-DE", "", "", "", ""⟩] "de-DE"
      "Beschreibung" "wort1,wort2" "https://m.example" "https://s.example"
      ⟨"LOC9", "de-DE", "", "", "", ""⟩ 500).1 (by decide),
   (c4_version_conflict_recovery [] "de-DE" "Beschreibung" "wort1,wort2" "" ""
      ⟨"LOC9", "de-DE", "", "", "", ""⟩ 500).2.1 (by decide)⟩

/-! ## Claim C5 -/

/-- C5 counterexample: the claim says the 409 recovery retries creation
only against an alternate app-info resource in the editable
(PREPARE_FOR_SUBMISSION) state. With one alternate resource in state
READY_FOR_SALE and a failing retry, the recovery trace contains a
`tryCreate` against that non-editable resource, so the editable-state
filter the claim describes does not exist in the code path. -/
theorem c5_retries_non_editable_counterexample :
    retries_only_editable [("AI1", "PREPARE_FOR_SUBMISSION"), ("AI2", "READY_FOR_SALE")]
      (app_info_conflict_recovery_ops "AI1" ["AI1", "AI2"] (fun _ => false)
        (fun _ => Except.ok []) (fun _ => true) "fr-FR") = false := by
  decide

lemma final_attempt_ops_no_create (ids : List String)
    (scan : String → Except Unit (List AppInfoLoc)) (updateOk : String → Bool)
    (locale i : String) :
    AppInfoOp.tryCreate i ∉ final_attempt_ops ids scan updateOk locale := by
  induction ids with
  | nil => simp [final_attempt_ops]
  | cons id0 rest ih =>
    simp only [final_attempt_ops]
    split
    · simp
    · split
      · split
        · intro hmem
          rcases List.mem_cons.mp hmem with heq | hmem2
          · exact AppInfoOp.noConfusion heq
          rcases List.mem_cons.mp hmem2 with heq2 | hmem3
          · exact AppInfoOp.noConfusion heq2
          · exact ih hmem3
        · intro hmem
          rcases List.mem_cons.mp hmem with heq | hmem2
          · exact AppInfoOp.noConfusion heq
          rcases List.mem_cons.mp hmem2 with heq2 | hmem3
          · exact AppInfoOp.noConfusion heq2
          · simp at hmem3
      · intro hmem
        rcases List.mem_cons.mp hmem with heq | hmem2
        · exact AppInfoOp.noConfusion heq
        · exact ih hmem2

lemma alt_create_ops_mem (primary : String) (ids : List String)
    (createOk : String → Bool) (i : String)
    (h : AppInfoOp.tryCreate i ∈ alt_create_ops primary ids createOk) :
    i ∈ ids ∧ i ≠ primary := by
  induction ids with
  | nil => simp [alt_create_ops] at h
  | cons id0 rest ih =>
    simp only [alt_create_ops] at h
    by_cases hp : id0 = primary
    · rw [if_pos hp] at h
      obtain ⟨h1, h2⟩ := ih h
      exact ⟨List.mem_cons_of_mem _ h1, h2⟩
    · rw [if_neg hp] at h
      by_cases hc : createOk id0
      · rw [if_pos hc] at h
        simp at h
        subst h
        exact ⟨List.mem_cons_self _ _, hp⟩
      · rw [if_neg hc] at h
        rcases List.mem_cons.mp h with heq | hmem
        · injection heq with h1
          subst h1
          exact ⟨List.mem_cons_self _ _, hp⟩
        · obtain ⟨h1, h2⟩ := ih hmem
          exact ⟨List.mem_cons_of_mem _ h1, h2⟩

lemma final_attempt_ops_update_mem (locale : String)
    (scan : String → Except Unit (List AppInfoLoc)) (updateOk : String → Bool)
    (hscan : ∀ j, ∃ ls, scan j = Except.ok ls)
    (hupd : ∀ lid, updateOk lid = true) :
    ∀ (ids : List String) (i : String), i ∈ ids →
      ∀ (locs : List AppInfoLoc) (loc : AppInfoLoc),
        scan i = Except.ok locs →
        locs.find? (fun l => l.locale = locale) = some loc →
        AppInfoOp.update loc.id ∈ final_attempt_ops ids scan updateOk locale := by
  intro ids
  induction ids with
  | nil => intro i hi; simp at hi
  | cons id0 rest ih =>
    intro i hi locs loc hsc hfind
    simp only [final_attempt_ops]
    split
    · next a heq =>
      obtain ⟨ls0, hls0⟩ := hscan id0
      rw [hls0] at heq
      exact Except.noConfusion heq
    · next locs0 heq =>
      split
      · next loc0 hf0 =>
        rw [if_pos (hupd loc0.id)]
        rcases List.mem_cons.mp hi with hieq | hmem
        · subst hieq
          rw [heq] at hsc
          injection hsc with h1
          subst h1
          rw [hf0] at hfind
          injection hfind with h2
          subst h2
          simp
        · have hmem2 := ih i hmem locs loc hsc hfind
          simp [hmem2]
      · next hf0 =>
        rcases List.mem_cons.mp hi with hieq | hmem
        · subst hieq
          rw [heq] at hsc
          injection hsc with h1
          subst h1
          rw [hf0] at hfind
          exact Option.noConfusion hfind
        · have hmem2 := ih i hmem locs loc hsc hfind
          simp [hmem2]

/-- C5 amended: on a 409 during an app-info create, the engine retries
creation against every other known app-info resource in its scan list —
regardless of lifecycle state — stopping at the first success; it then
unconditionally re-scans the known app-info resources and updates each
matching localization found; in every case the recovery runs to completion
and control continues with the next locale (the handler swallows all
failures). Formally: every retried create targets a non-primary id of the
scan list, and when no retry interferes (all scans succeed and updates do
not raise), every app-info whose localization list contains the locale
contributes an update to the recovery trace. -/
theorem c5_recovery_behavior :
    ∀ (primary : String) (ids : List String) (createOk : String → Bool)
      (scan : String → Except Unit (List AppInfoLoc)) (updateOk : String → Bool)
      (locale : String),
      (∀ i, AppInfoOp.tryCreate i ∈
          app_info_conflict_recovery_ops primary ids createOk scan updateOk locale →
        i ∈ ids ∧ i ≠ primary) ∧
      ((∀ j, ∃ ls, scan j = Except.ok ls) → (∀ lid, updateOk lid = true) →
        ∀ i, i ∈ ids → ∀ (locs : List AppInfoLoc) (loc : AppInfoLoc),
          scan i = Except.ok locs →
          locs.find? (fun l => l.locale = locale) = some loc →
          AppInfoOp.update loc.id ∈
            app_info_conflict_recovery_ops primary ids createOk scan updateOk locale) := by
  intro primary ids createOk scan updateOk locale
  constructor
  · intro i hmem
    unfold app_info_conflict_recovery_ops at hmem
    rcases List.mem_append.mp hmem with h1 | h2
    · exact alt_create_ops_mem primary ids createOk i h1
    · exact absurd h2 (final_attempt_ops_no_create ids scan updateOk locale i)
  · intro hscan hupd i hi locs loc hsc hfind
    unfold app_info_conflict_recovery_ops
    exact List.mem_append.mpr (Or.inr
      (final_attempt_ops_update_mem locale scan updateOk hscan hupd ids i hi locs loc
        hsc hfind))

/-- C5 amended witness: with all retries failing and clean re-scans, the
localization found under the second app-info resource is updated by the
recovery. -/
theorem c5_recovery_behavior_witness :
    AppInfoOp.update "L9" ∈
      app_info_conflict_recovery_ops "AI1" ["AI1", "AI2"] (fun _ => false)
        (fun j => if j = "AI2" then Except.ok [⟨"L9", "de-DE"⟩] else Except.ok [])
        (fun _ => true) "de-DE" :=
  (c5_recovery_behavior "AI1" ["AI1", "AI2"] (fun _ => false)
      (fun j => if j = "AI2" then Except.ok [⟨"L9", "de-DE"⟩] else Except.ok [])
      (fun _ => true) "de-DE").2
    (fun j => if h : j = "AI2" then ⟨[⟨"L9", "de-DE"⟩], by rw [if_pos h]⟩
      else ⟨[], by rw [if_neg h]⟩)
    (fun _ => rfl)
    "AI2" (by simp) [⟨"L9", "de-DE"⟩] ⟨"L9", "de-DE"⟩ (by simp) (by decide)

end Trnslt
